import Mathlib

/-!
Verification of the Mira chat client (crates mira-core / mira-cli).

The development shallowly embeds the protocol layer of
src/mira-core/src/lib.rs:

  * the binary frame codec ChatCodec (encode / decode) over byte buffers,
    modelled as lists of naturals below 256, with big-endian reads/writes
    written explicitly with division and modulus;
  * the outbound packet constructors RawChatPacket::authenticate and
    RawChatPacket::heartbeat;
  * the JSON message taxonomy (msg::Message, msg::GuardLevel) and
    Message::parse over a model of the json crate's JsonValue.

External pure library functions that the code calls are passed to the
embedded decoder as parameters: zlib decompression
(miniz_oxide::inflate::decompress_to_vec_zlib) as
dec : List Nat -> Option (List Nat), and the composite
"str::from_utf8_unchecked, json::parse, Message::parse with its
ParsingError fallback" step applied to each sub-frame payload as
mk : List Nat -> Option M (none models a json::parse unwrap panic;
from_utf8_unchecked is the identity on bytes).  Frame-level theorems are
stated for every such parameter, so they hold in particular for the real
decompressor and message builder.

Fallible outcomes are explicit: DecodeResult distinguishes Ok(None)
(need more data), Ok(Some packets), Err (bail!) and a panic of the
underlying slice/Buf operations or of an unwrap; ParseOutcome likewise
distinguishes Some, None and a panic of the assert! in the WELCOME arm.
-/

namespace Mira

/-! ## Byte-level primitives (the bytes crate, big-endian) -/

/-- Big-endian u32 read at offset i, as by Buf::get_u32.  The decoder
below guards every read by a length check mirroring the source, so the
default 0 of getD is never consulted on the guarded paths. -/
def readU32 (bs : List Nat) (i : Nat) : Nat :=
  bs.getD i 0 * 2^24 + bs.getD (i+1) 0 * 2^16 + bs.getD (i+2) 0 * 2^8 + bs.getD (i+3) 0

/-- Big-endian u16 read at offset i, as by Buf::get_u16. -/
def readU16 (bs : List Nat) (i : Nat) : Nat :=
  bs.getD i 0 * 2^8 + bs.getD (i+1) 0

/-- Big-endian u32 write, as by BufMut::put_u32 (truncating to 32 bits). -/
def putU32 (n : Nat) : List Nat :=
  [n / 2^24 % 256, n / 2^16 % 256, n / 2^8 % 256, n % 256]

/-- Big-endian u16 write, as by BufMut::put_u16 (truncating to 16 bits). -/
def putU16 (n : Nat) : List Nat :=
  [n / 2^8 % 256, n % 256]

/-- Rust slice indexing bs[i..j].  Every use below is guarded by the
same bounds checks the source performs (an out-of-range index in Rust
panics, which the decoder model reports through its panicked outcome). -/
def slice (bs : List Nat) (i j : Nat) : List Nat :=
  (bs.drop i).take (j - i)

/-! ## Outbound packets (mira-core chat::RawChatPacket) -/

/-- ASCII byte string of a Lean string (all strings written by the
encoder are ASCII, where UTF-8 bytes and char codes coincide). -/
def toBytes (s : String) : List Nat := s.data.map Char.toNat

/-- chat::RawChatPacket: protocol version, operation and payload of an
outbound frame. -/
structure RawChatPacket where
  proto_ver : Nat
  operation : Nat
  payload : List Nat
deriving DecidableEq

/-- RawChatPacket::authenticate: version 1, opcode 7 (user
authentication), payload the formatted JSON text
with fields roomid (the decimal room id) and protover 2. -/
def authenticate (roomId : Nat) : RawChatPacket :=
  { proto_ver := 1
    operation := 7
    payload := toBytes ("\x7b\"roomid\":" ++ toString roomId ++ ",\"protover\":2\x7d") }

/-- RawChatPacket::heartbeat: version 1, opcode 2 (heartbeat), empty
payload. -/
def heartbeat : RawChatPacket :=
  { proto_ver := 1, operation := 2, payload := [] }

/-! ## ChatCodec -/

namespace ChatCodec

/-- ChatCodec as Encoder: total length (16 plus payload length),
header length 16, protocol version, operation, sequence id 1, then the
payload verbatim, all big-endian. -/
def encode (pk : RawChatPacket) : List Nat :=
  putU32 (16 + pk.payload.length) ++ putU16 16 ++ putU16 pk.proto_ver ++
    putU32 pk.operation ++ putU32 1 ++ pk.payload

/-- chat::ChatPacket, parametrised by the type M produced for a Message
payload by the mk parameter of the decoder (see decodeWith). -/
inductive ChatPacket (M : Type) where
  | ConnectSuccess : ChatPacket M
  | Popularity (n : Nat) : ChatPacket M
  | Message (m : M) : ChatPacket M
deriving DecidableEq

/-- Outcome of one ChatCodec::decode call: Ok(None), Ok(Some packets),
Err(...) raised by bail!, or a panic of a slice index, Buf read past the
end, or an unwrap. -/
inductive DecodeResult (M : Type) where
  | needMore : DecodeResult M
  | packets (ps : List (ChatPacket M)) : DecodeResult M
  | fail : DecodeResult M
  | panicked : DecodeResult M
deriving DecidableEq

/-- The OP_MESSAGE sub-frame loop of ChatCodec::decode: while data
remains, read a 4-byte big-endian length L, take bytes 16..L of the
sub-frame as its payload, and advance by L.  Any malformed step (fewer
than 4 bytes left for get_u32, a declared length below 16 so the
payload slice bounds are inverted or the length arithmetic underflows,
or a declared length past the end of the buffer) panics in the source;
here it yields none.  Returns the payload byte strings in order. -/
def subFrames (data : List Nat) : Option (List (List Nat)) :=
  if data.length = 0 then some []
  else if data.length < 4 then none
  else
    let L := readU32 data 0
    if L < 16 then none
    else if data.length < L then none
    else
      match subFrames (data.drop L) with
      | none => none
      | some rest => some (slice data 16 L :: rest)
termination_by data.length
decreasing_by
  simp only [List.length_drop]
  omega

/-- The per-iteration message-building step of the sub-frame loop,
applied to the sub-frame payload texts in order: one Message packet per
payload via the builder mk, none as soon as any json::parse unwrap
panics. -/
def msgList {M : Type} (mk : List Nat → Option M) :
    List (List Nat) → Option (List (ChatPacket M))
  | [] => some []
  | p :: rest =>
    match mk p with
    | none => none
    | some m =>
      match msgList mk rest with
      | none => none
      | some ms => some (.Message m :: ms)

/-- Builds the packet list of an OP_MESSAGE frame from the byte buffer
holding its (sub-framed) data: split into sub-frame payloads, build one
Message packet per payload text, and return Ok(None) for an empty
result list exactly as the final is_empty test of the source does.
src is the whole input buffer and len the frame's total length,
consumed on success. -/
def mkRes {M : Type} (mk : List Nat → Option M) (data src : List Nat) (len : Nat) :
    DecodeResult M × List Nat :=
  match subFrames data with
  | none => (.panicked, src)
  | some payloads =>
    match msgList mk payloads with
    | none => (.panicked, src)
    | some res =>
      if res.isEmpty then (.needMore, src.drop len) else (.packets res, src.drop len)

/-- ChatCodec as Decoder, over the buffer src, parametrised by the zlib
decompressor dec and the per-payload message builder mk.  Mirrors the
source line by line: fewer than 4 buffered bytes or fewer than the
declared total length is Ok(None) with nothing consumed; the header
reads panic when fewer than 16 bytes are buffered; opcode 8 emits
ConnectSuccess, opcode 3 reads the popularity u32 at buffer offset 16
(panicking when fewer than 20 bytes are buffered), opcode 5 branches on
the protocol version (0: the frame bytes themselves feed the sub-frame
loop; 2: decompress bytes 16..len, a failure is a bail!; anything else
is a bail!), and any other opcode produces nothing; apart from the
early returns the buffer is advanced by exactly the total length, and
an empty result list is reported as Ok(None). -/
def decodeWith {M : Type} (dec : List Nat → Option (List Nat))
    (mk : List Nat → Option M) (src : List Nat) : DecodeResult M × List Nat :=
  if src.length < 4 then (.needMore, src)
  else
    let len := readU32 src 0
    if src.length < len then (.needMore, src)
    else if src.length < 16 then (.panicked, src)
    else
      let protoVer := readU16 src 6
      let operation := readU32 src 8
      if operation = 8 then (.packets [.ConnectSuccess], src.drop len)
      else if operation = 3 then
        if src.length < 20 then (.panicked, src)
        else (.packets [.Popularity (readU32 src 16)], src.drop len)
      else if operation = 5 then
        if protoVer = 0 then mkRes mk (src.take len) src len
        else if protoVer = 2 then
          if len < 16 then (.panicked, src)
          else
            match dec (slice src 16 len) with
            | none => (.fail, src)
            | some data => mkRes mk data src len
        else (.fail, src)
      else (.needMore, src.drop len)

end ChatCodec

/-! ## The msg layer: JsonValue model, GuardLevel, Message, parse

JsonValue models the json crate's value type; Short and String collapse
into one string constructor, and numbers are modelled as integers (the
claims only exercise integral fields; as_u32 / as_i32 perform the same
range checks the crate's checked conversions do).  take_string is
modelled as a read: in every arm of Message::parse each JSON location is
taken at most once and the mutated value is dropped afterwards, so the
replacement of the taken string by null is unobservable in the result. -/

inductive JsonValue where
  | null : JsonValue
  | boolean (b : Bool) : JsonValue
  | num (n : Int) : JsonValue
  | str (s : String) : JsonValue
  | arr (xs : List JsonValue) : JsonValue
  | obj (fields : List (String × JsonValue)) : JsonValue

/-- First field of an object entry list with the given key, else null
(the json crate returns the NULL sentinel for a missing key). -/
def findField : List (String × JsonValue) → String → JsonValue
  | [], _ => .null
  | (k2, v) :: rest, k => if k2 = k then v else findField rest k

/-- Indexing json[key]: object lookup, null on anything else. -/
def jget : JsonValue → String → JsonValue
  | .obj fields, k => findField fields k
  | _, _ => .null

/-- Indexing json[i]: array element, null when out of range or not an
array. -/
def jidx : JsonValue → Nat → JsonValue
  | .arr xs, i => xs.getD i .null
  | _, _ => .null

/-- JsonValue::as_str: the string of a string value, else none. -/
def asStr : JsonValue → Option String
  | .str s => some s
  | _ => none

/-- JsonValue::take_string, modelled as a read (see the section note). -/
def takeString : JsonValue → Option String
  | .str s => some s
  | _ => none

/-- JsonValue::as_u32: an integral number within u32 range, else none. -/
def asU32 : JsonValue → Option Nat
  | .num n => if 0 ≤ n ∧ n < 4294967296 then some n.toNat else none
  | _ => none

/-- JsonValue::as_i32: an integral number within i32 range, else none. -/
def asI32 : JsonValue → Option Int
  | .num n => if -2147483648 ≤ n ∧ n < 2147483648 then some n else none
  | _ => none

/-- JsonValue::as_bool: the boolean of a boolean value, else none. -/
def asBool : JsonValue → Option Bool
  | .boolean b => some b
  | _ => none

/-- Comparison json == k for an integer k (PartialEq of the json crate):
true exactly for a number equal to k. -/
def eqInt (j : JsonValue) (k : Int) : Bool :=
  match j with
  | .num n => n = k
  | _ => false

/-- msg::GuardLevel. -/
inductive GuardLevel where
  | None : GuardLevel
  | Captain : GuardLevel
  | Praefect : GuardLevel
  | Governor : GuardLevel
deriving DecidableEq

/-- GuardLevel::from: ordinals 0,1,2,3 map to None, Governor, Praefect,
Captain; anything else is none. -/
def GuardLevel.fromNat (n : Nat) : Option GuardLevel :=
  match n with
  | 0 => some .None
  | 1 => some .Governor
  | 2 => some .Praefect
  | 3 => some .Captain
  | _ => none

/-- msg::Message (the field named type carries the source field r#type). -/
inductive Message where
  | Preparing : Message
  | Live : Message
  | RoomChange (title area_name parent_area_name : String) : Message
  | Danmaku (mode size color : Nat) (dmid : Int) (text : String)
      (ty : Nat) (uid : Nat) (uname : String) : Message
  | SendGift (action gift_name : String) (num uid : Nat) (uname : String) : Message
  | ComboEnd (action gift_name : String) (num uid : Nat) (uname : String) : Message
  | Welcome (is_admin is_svip : Bool) (uid : Nat) (uname : String) : Message
  | WelcomeGuard (guard_level : GuardLevel) (uid : Nat) (uname : String) : Message
  | RoomRealTimeMessageUpdate (fans : Nat) : Message
  | RoomRank (rank_desc color : String) (timestamp : Nat) : Message
  | EntryEffect (id uid target_id : Nat) (face copy_writing copy_color : String) : Message
  | NoticeMessage (roomid real_roomid : Nat) (msg_common msg_self : String) : Message
  | SuperChatMessage (id : String) (sender_uid price : Nat)
      (message sender_name : String) : Message
  | SuperChatMessageJapanese (id sender_uid : String) (price : Nat)
      (message message_jpn sender_name : String) : Message
  | HotRoomNotify : Message
  | Raw (j : JsonValue) : Message
  | ParsingError (s : String) : Message

/-- Outcome of Message::parse: Some(message), None (turned into
ParsingError by the caller), or the panic of the assert! in the WELCOME
arm. -/
inductive ParseOutcome where
  | ok (m : Message) : ParseOutcome
  | missing : ParseOutcome
  | panicked : ParseOutcome

/-- ROOM_CHANGE arm of Message::parse. -/
def armRoomChange (j : JsonValue) : Option Message := do
  let data := jget j "data"
  let title ← takeString (jget data "title")
  let areaName ← takeString (jget data "area_name")
  let parentAreaName ← takeString (jget data "parent_area_name")
  return .RoomChange title areaName parentAreaName

/-- DANMU_MSG arm of Message::parse: positional reads from the info
array at indices 0.1, 0.2, 0.3, 0.5, 1, 0.9, 2.0, 2.1. -/
def armDanmaku (j : JsonValue) : Option Message := do
  let info := jget j "info"
  let mode ← asU32 (jidx (jidx info 0) 1)
  let size ← asU32 (jidx (jidx info 0) 2)
  let color ← asU32 (jidx (jidx info 0) 3)
  let dmid ← asI32 (jidx (jidx info 0) 5)
  let text ← takeString (jidx info 1)
  let ty ← asU32 (jidx (jidx info 0) 9)
  let uid ← asU32 (jidx (jidx info 2) 0)
  let uname ← takeString (jidx (jidx info 2) 1)
  return .Danmaku mode size color dmid text ty uid uname

/-- SEND_GIFT arm of Message::parse. -/
def armSendGift (j : JsonValue) : Option Message := do
  let data := jget j "data"
  let action ← takeString (jget data "action")
  let giftName ← takeString (jget data "giftName")
  let num ← asU32 (jget data "num")
  let uid ← asU32 (jget data "uid")
  let uname ← takeString (jget data "uname")
  return .SendGift action giftName num uid uname

/-- COMBO_END arm of Message::parse. -/
def armComboEnd (j : JsonValue) : Option Message := do
  let data := jget j "data"
  let action ← takeString (jget data "action")
  let giftName ← takeString (jget data "gift_name")
  let num ← asU32 (jget data "combo_num")
  let uid ← asU32 (jget data "uid")
  let uname ← takeString (jget data "uname")
  return .ComboEnd action giftName num uid uname

/-- Field extraction of the WELCOME arm of Message::parse, after the
assert on the vip field has passed; is_svip is the infallible
comparison svip != 0. -/
def armWelcome (j : JsonValue) : Option Message := do
  let data := jget j "data"
  let isAdmin ← asBool (jget data "is_admin")
  let isSvip := !eqInt (jget data "svip") 0
  let uid ← asU32 (jget data "uid")
  let uname ← takeString (jget data "uname")
  return .Welcome isAdmin isSvip uid uname

/-- WELCOME_GUARD arm of Message::parse: reads the guard_level ordinal
as u32, then GuardLevel::from, uid and username, any failure aborting
the arm. -/
def armWelcomeGuard (j : JsonValue) : Option Message := do
  let data := jget j "data"
  let ordinal ← asU32 (jget data "guard_level")
  let guardLevel ← GuardLevel.fromNat ordinal
  let uid ← asU32 (jget data "uid")
  let uname ← takeString (jget data "username")
  return .WelcomeGuard guardLevel uid uname

/-- ROOM_RANK arm of Message::parse. -/
def armRoomRank (j : JsonValue) : Option Message := do
  let data := jget j "data"
  let rankDesc ← takeString (jget data "rank_desc")
  let color ← takeString (jget data "color")
  let timestamp ← asU32 (jget data "timestamp")
  return .RoomRank rankDesc color timestamp

/-- ENTRY_EFFECT arm of Message::parse. -/
def armEntryEffect (j : JsonValue) : Option Message := do
  let data := jget j "data"
  let id ← asU32 (jget data "id")
  let uid ← asU32 (jget data "uid")
  let targetId ← asU32 (jget data "target_id")
  let face ← takeString (jget data "face")
  let copyWriting ← takeString (jget data "copy_writing")
  let copyColor ← takeString (jget data "copy_color")
  return .EntryEffect id uid targetId face copyWriting copyColor

/-- NOTICE_MSG arm of Message::parse (fields read from the top level of
the JSON document, not from a data object). -/
def armNoticeMessage (j : JsonValue) : Option Message := do
  let roomid ← asU32 (jget j "roomid")
  let realRoomid ← asU32 (jget j "real_roomid")
  let msgCommon ← takeString (jget j "msg_common")
  let msgSelf ← takeString (jget j "msg_self")
  return .NoticeMessage roomid realRoomid msgCommon msgSelf

/-- ROOM_REAL_TIME_MESSAGE_UPDATE arm of Message::parse. -/
def armRoomRealTime (j : JsonValue) : Option Message := do
  let data := jget j "data"
  let fans ← asU32 (jget data "fans")
  return .RoomRealTimeMessageUpdate fans

/-- SUPER_CHAT_MESSAGE arm of Message::parse. -/
def armSuperChat (j : JsonValue) : Option Message := do
  let data := jget j "data"
  let id ← takeString (jget data "id")
  let senderUid ← asU32 (jget data "uid")
  let price ← asU32 (jget data "price")
  let message ← takeString (jget data "message")
  let senderName ← takeString (jget (jget data "user_info") "uname")
  return .SuperChatMessage id senderUid price message senderName

/-- SUPER_CHAT_MESSAGE_JPN arm of Message::parse (the sender uid is a
string here). -/
def armSuperChatJpn (j : JsonValue) : Option Message := do
  let data := jget j "data"
  let id ← takeString (jget data "id")
  let senderUid ← takeString (jget data "uid")
  let price ← asU32 (jget data "price")
  let message ← takeString (jget data "message")
  let messageJpn ← takeString (jget data "message_jpn")
  let senderName ← takeString (jget (jget data "user_info") "uname")
  return .SuperChatMessageJapanese id senderUid price message messageJpn senderName

/-- Lifts an arm's optional message to a ParseOutcome (None becomes the
missing outcome the caller maps to ParsingError). -/
def toOutcome : Option Message → ParseOutcome
  | some m => .ok m
  | none => .missing

/-- The command tags Message::parse recognises, in match order. -/
def knownCmds : List String :=
  ["PREPARING", "LIVE", "ROOM_CHANGE", "DANMU_MSG", "SEND_GIFT", "COMBO_END",
   "WELCOME", "WELCOME_GUARD", "ROOM_RANK", "ENTRY_EFFECT", "NOTICE_MSG",
   "ROOM_REAL_TIME_MESSAGE_UPDATE", "SUPER_CHAT_MESSAGE",
   "SUPER_CHAT_MESSAGE_JPN", "HOT_ROOM_NOTIFY"]

/-- Message::parse: dispatch on the cmd string; a missing or
non-string cmd aborts, each known tag runs its arm, the WELCOME arm
first runs the source's assert on data.vip (panicking when it is not
the number 1), and an unknown tag yields Raw of the original value. -/
def Message.parse (j : JsonValue) : ParseOutcome :=
  match asStr (jget j "cmd") with
  | none => .missing
  | some cmd =>
    if cmd = "PREPARING" then .ok .Preparing
    else if cmd = "LIVE" then .ok .Live
    else if cmd = "ROOM_CHANGE" then toOutcome (armRoomChange j)
    else if cmd = "DANMU_MSG" then toOutcome (armDanmaku j)
    else if cmd = "SEND_GIFT" then toOutcome (armSendGift j)
    else if cmd = "COMBO_END" then toOutcome (armComboEnd j)
    else if cmd = "WELCOME" then
      if eqInt (jget (jget j "data") "vip") 1 then toOutcome (armWelcome j)
      else .panicked
    else if cmd = "WELCOME_GUARD" then toOutcome (armWelcomeGuard j)
    else if cmd = "ROOM_RANK" then toOutcome (armRoomRank j)
    else if cmd = "ENTRY_EFFECT" then toOutcome (armEntryEffect j)
    else if cmd = "NOTICE_MSG" then toOutcome (armNoticeMessage j)
    else if cmd = "ROOM_REAL_TIME_MESSAGE_UPDATE" then toOutcome (armRoomRealTime j)
    else if cmd = "SUPER_CHAT_MESSAGE" then toOutcome (armSuperChat j)
    else if cmd = "SUPER_CHAT_MESSAGE_JPN" then toOutcome (armSuperChatJpn j)
    else if cmd = "HOT_ROOM_NOTIFY" then .ok .HotRoomNotify
    else .ok (.Raw j)

/-! ## Helper lemmas on encoded frames -/

theorem length_encode (pk : RawChatPacket) :
    (ChatCodec.encode pk).length = 16 + pk.payload.length := by
  simp [ChatCodec.encode, putU32, putU16]
  omega

theorem readU32_encode_zero (pk : RawChatPacket) :
    readU32 (ChatCodec.encode pk) 0 = (16 + pk.payload.length) % 2^32 := by
  simp [ChatCodec.encode, putU32, putU16, readU32]
  omega

theorem readU16_encode_four (pk : RawChatPacket) :
    readU16 (ChatCodec.encode pk) 4 = 16 := by
  simp [ChatCodec.encode, putU32, putU16, readU16]

theorem readU16_encode_six (pk : RawChatPacket) :
    readU16 (ChatCodec.encode pk) 6 = pk.proto_ver % 2^16 := by
  simp [ChatCodec.encode, putU32, putU16, readU16]
  omega

theorem readU32_encode_eight (pk : RawChatPacket) :
    readU32 (ChatCodec.encode pk) 8 = pk.operation % 2^32 := by
  simp [ChatCodec.encode, putU32, putU16, readU32]
  omega

theorem readU32_encode_twelve (pk : RawChatPacket) :
    readU32 (ChatCodec.encode pk) 12 = 1 := by
  simp [ChatCodec.encode, putU32, putU16, readU32]

theorem drop_sixteen_encode (pk : RawChatPacket) :
    (ChatCodec.encode pk).drop 16 = pk.payload := by
  simp [ChatCodec.encode, putU32, putU16]

theorem slice_encode_payload (pk : RawChatPacket) :
    slice (ChatCodec.encode pk) 16 (16 + pk.payload.length) = pk.payload := by
  simp [slice, drop_sixteen_encode]

/-- C5: for every valid (protocol_version, operation, payload) triple,
the reads the decoder performs on the bytes produced by
ChatCodec::encode recover the original total length, header length,
protocol version, operation, sequence and payload: the frame
round-trips. -/
theorem frame_round_trip (v op : Nat) (p : List Nat)
    (hv : v < 2^16) (hop : op < 2^32) (hlen : 16 + p.length < 2^32) :
    readU32 (ChatCodec.encode ⟨v, op, p⟩) 0 = 16 + p.length ∧
    readU16 (ChatCodec.encode ⟨v, op, p⟩) 4 = 16 ∧
    readU16 (ChatCodec.encode ⟨v, op, p⟩) 6 = v ∧
    readU32 (ChatCodec.encode ⟨v, op, p⟩) 8 = op ∧
    readU32 (ChatCodec.encode ⟨v, op, p⟩) 12 = 1 ∧
    slice (ChatCodec.encode ⟨v, op, p⟩) 16 (16 + p.length) = p := by
  refine ⟨?_, readU16_encode_four _, ?_, ?_, readU32_encode_twelve _, slice_encode_payload _⟩
  · rw [readU32_encode_zero]
    exact Nat.mod_eq_of_lt hlen
  · rw [readU16_encode_six]
    exact Nat.mod_eq_of_lt hv
  · rw [readU32_encode_eight]
    exact Nat.mod_eq_of_lt hop

/-- Witness for C5 at the concrete triple (1, 7, [65]). -/
theorem frame_round_trip_witness :
    readU32 (ChatCodec.encode ⟨1, 7, [65]⟩) 0 = 17 ∧
    readU16 (ChatCodec.encode ⟨1, 7, [65]⟩) 4 = 16 ∧
    readU16 (ChatCodec.encode ⟨1, 7, [65]⟩) 6 = 1 ∧
    readU32 (ChatCodec.encode ⟨1, 7, [65]⟩) 8 = 7 ∧
    readU32 (ChatCodec.encode ⟨1, 7, [65]⟩) 12 = 1 ∧
    slice (ChatCodec.encode ⟨1, 7, [65]⟩) 16 17 = [65] := by
  simpa using frame_round_trip 1 7 [65] (by norm_num) (by norm_num) (by norm_num)

/-- C8: ChatCodec::encode lays out every packet as total length 16 plus
the payload length, header length 16, the packet's version and
operation, sequence 1, then the payload verbatim (stated through the
decoder-side reads of the emitted bytes); and the two packet
constructors the client sends are the version-1 authentication frame
whose payload is the JSON text with the decimal room id and protover 2,
and the version-1 heartbeat frame with empty payload. -/
theorem encode_layout :
    (∀ pk : RawChatPacket,
      (ChatCodec.encode pk).length = 16 + pk.payload.length ∧
      readU32 (ChatCodec.encode pk) 0 = (16 + pk.payload.length) % 2^32 ∧
      readU16 (ChatCodec.encode pk) 4 = 16 ∧
      readU16 (ChatCodec.encode pk) 6 = pk.proto_ver % 2^16 ∧
      readU32 (ChatCodec.encode pk) 8 = pk.operation % 2^32 ∧
      readU32 (ChatCodec.encode pk) 12 = 1 ∧
      (ChatCodec.encode pk).drop 16 = pk.payload) ∧
    (∀ n : Nat, authenticate n =
      ⟨1, 7, toBytes ("\x7b\"roomid\":" ++ toString n ++ ",\"protover\":2\x7d")⟩) ∧
    heartbeat = ⟨1, 2, []⟩ := by
  refine ⟨fun pk => ⟨length_encode pk, readU32_encode_zero pk, readU16_encode_four pk,
    readU16_encode_six pk, readU32_encode_eight pk, readU32_encode_twelve pk,
    drop_sixteen_encode pk⟩, fun n => rfl, rfl⟩

/-! ## Helper lemmas on the decoder -/

theorem getD_take (bs : List Nat) (k i : Nat) (h : i < k) :
    (bs.take k).getD i 0 = bs.getD i 0 := by
  simp [List.getD_eq_getElem?_getD, List.getElem?_take, h]

theorem readU32_take (bs : List Nat) (k i : Nat) (h : i + 4 ≤ k) :
    readU32 (bs.take k) i = readU32 bs i := by
  unfold readU32
  rw [getD_take _ _ _ (by omega), getD_take _ _ _ (by omega),
    getD_take _ _ _ (by omega), getD_take _ _ _ (by omega)]

theorem decode_short {M : Type} (dec : List Nat → Option (List Nat))
    (mk : List Nat → Option M) (src : List Nat) (h : src.length < 4) :
    ChatCodec.decodeWith dec mk src = (.needMore, src) := by
  unfold ChatCodec.decodeWith
  rw [if_pos h]

theorem decode_incomplete {M : Type} (dec : List Nat → Option (List Nat))
    (mk : List Nat → Option M) (src : List Nat) (h4 : ¬ src.length < 4)
    (h : src.length < readU32 src 0) :
    ChatCodec.decodeWith dec mk src = (.needMore, src) := by
  unfold ChatCodec.decodeWith
  rw [if_neg h4]
  simp only [if_pos h]

/-- C3: the decoder is resumable over partial reads: on any strict
prefix of a frame whose declared total length is its full byte count,
decode signals need-more-data and consumes nothing, and therefore
feeding the prefix and then the rest of the bytes decodes exactly as
feeding the frame whole. -/
theorem decode_partial_read {M : Type} (dec : List Nat → Option (List Nat))
    (mk : List Nat → Option M) (F : List Nat) (k : Nat)
    (hdecl : readU32 F 0 = F.length) (h16 : 16 ≤ F.length) (hk : k < F.length) :
    ChatCodec.decodeWith dec mk (F.take k) = (.needMore, F.take k) ∧
    ChatCodec.decodeWith dec mk (F.take k ++ F.drop k) = ChatCodec.decodeWith dec mk F := by
  constructor
  · have hlen : (F.take k).length = k := by
      simp [List.length_take]
      omega
    by_cases h4 : k < 4
    · exact decode_short dec mk _ (by omega)
    · have hr : readU32 (F.take k) 0 = F.length := by
        rw [readU32_take _ _ _ (by omega)]
        exact hdecl
      exact decode_incomplete dec mk _ (by omega) (by omega)
  · rw [List.take_append_drop]

/-- Witness for C3: the encoded heartbeat frame cut after 7 bytes. -/
theorem decode_partial_read_witness :
    ChatCodec.decodeWith (M := List Nat) (fun _ => none) (fun _ => none)
      ((ChatCodec.encode heartbeat).take 7) =
        (.needMore, (ChatCodec.encode heartbeat).take 7) ∧
    ChatCodec.decodeWith (M := List Nat) (fun _ => none) (fun _ => none)
      ((ChatCodec.encode heartbeat).take 7 ++ (ChatCodec.encode heartbeat).drop 7) =
        ChatCodec.decodeWith (fun _ => none) (fun _ => none) (ChatCodec.encode heartbeat) := by
  exact decode_partial_read (fun _ => none) (fun _ => none) (ChatCodec.encode heartbeat) 7
    (by decide) (by decide) (by decide)

/-- C4: a fully-buffered Message frame (opcode 5) whose protocol
version is neither 0 nor 2 makes decode fail fatally, emitting no
packets (and, as bail! returns before the buffer is advanced, leaving
the buffer untouched). -/
theorem decode_unsupported_version {M : Type} (dec : List Nat → Option (List Nat))
    (mk : List Nat → Option M) (v : Nat) (p : List Nat)
    (hv : v < 2^16) (hv0 : v ≠ 0) (hv2 : v ≠ 2) (hlen : 16 + p.length < 2^32) :
    ChatCodec.decodeWith dec mk (ChatCodec.encode ⟨v, 5, p⟩) =
      (.fail, ChatCodec.encode ⟨v, 5, p⟩) := by
  have hl := length_encode ⟨v, 5, p⟩
  have h0 : readU32 (ChatCodec.encode ⟨v, 5, p⟩) 0 = 16 + p.length := by
    rw [readU32_encode_zero]
    exact Nat.mod_eq_of_lt hlen
  have h6 : readU16 (ChatCodec.encode ⟨v, 5, p⟩) 6 = v := by
    rw [readU16_encode_six]
    exact Nat.mod_eq_of_lt hv
  have h8 : readU32 (ChatCodec.encode ⟨v, 5, p⟩) 8 = 5 := by
    rw [readU32_encode_eight]
    norm_num
  unfold ChatCodec.decodeWith
  rw [if_neg (by omega)]
  simp only [h0, h6, h8, hl]
  rw [if_neg (by omega), if_neg (by omega)]
  norm_num
  rw [if_neg hv0, if_neg hv2]

/-- Witness for C4: protocol version 99 on an empty-payload Message
frame. -/
theorem decode_unsupported_version_witness :
    ChatCodec.decodeWith (M := List Nat) (fun _ => none) (fun _ => none)
      (ChatCodec.encode ⟨99, 5, []⟩) = (.fail, ChatCodec.encode ⟨99, 5, []⟩) :=
  decode_unsupported_version (fun _ => none) (fun _ => none) 99 []
    (by decide) (by decide) (by decide) (by decide)

theorem mkRes_snd {M : Type} (mk : List Nat → Option M) (data src : List Nat) (len : Nat) :
    (ChatCodec.mkRes mk data src len).1 ≠ .panicked →
    (ChatCodec.mkRes mk data src len).2 = src.drop len := by
  unfold ChatCodec.mkRes
  split
  · intro h
    exact absurd rfl h
  · split
    · intro h
      exact absurd rfl h
    · split <;> intro _ <;> rfl

theorem mkRes_fst_ne_fail {M : Type} (mk : List Nat → Option M) (data src : List Nat)
    (len : Nat) : (ChatCodec.mkRes mk data src len).1 ≠ .fail := by
  unfold ChatCodec.mkRes
  split
  · simp
  · split
    · simp
    · split <;> simp

theorem mkRes_packets_nonempty {M : Type} (mk : List Nat → Option M) (data src : List Nat)
    (len : Nat) (ps : List (ChatCodec.ChatPacket M)) :
    (ChatCodec.mkRes mk data src len).1 = .packets ps → ps ≠ [] := by
  unfold ChatCodec.mkRes
  split
  · intro h
    simp at h
  · split
    · intro h
      simp at h
    · split
      · intro h
        simp at h
      · intro h
        simp only [ChatCodec.DecodeResult.packets.injEq] at h
        subst h
        simp_all [List.isEmpty_iff]

/-- C6: on a fully-buffered frame (at least 16 declared bytes, all
buffered), every decode call that does not fail or panic advances the
buffer by exactly the declared total length, whichever opcode and
version branch ran; in particular a frame with an opcode other than 3,
5 or 8 is consumed in full and produces no output, so the next call
starts at the next frame boundary. -/
theorem decode_consumes_total_length {M : Type} (dec : List Nat → Option (List Nat))
    (mk : List Nat → Option M) (src : List Nat)
    (h16 : 16 ≤ readU32 src 0) (hfit : readU32 src 0 ≤ src.length) :
    ((ChatCodec.decodeWith dec mk src).1 ≠ .fail →
     (ChatCodec.decodeWith dec mk src).1 ≠ .panicked →
     (ChatCodec.decodeWith dec mk src).2 = src.drop (readU32 src 0)) ∧
    (readU32 src 8 ≠ 3 → readU32 src 8 ≠ 5 → readU32 src 8 ≠ 8 →
     ChatCodec.decodeWith dec mk src = (.needMore, src.drop (readU32 src 0))) := by
  have h4 : ¬ src.length < 4 := by omega
  have hA : ¬ src.length < readU32 src 0 := by omega
  have hB : ¬ src.length < 16 := by omega
  constructor
  · unfold ChatCodec.decodeWith
    rw [if_neg h4]
    simp only [if_neg hA, if_neg hB]
    by_cases h8 : readU32 src 8 = 8
    · simp only [if_pos h8]
      intro _ _
      trivial
    · simp only [if_neg h8]
      by_cases h3 : readU32 src 8 = 3
      · simp only [if_pos h3]
        by_cases h20 : src.length < 20
        · simp only [if_pos h20]
          intro _ hp
          exact absurd rfl hp
        · simp only [if_neg h20]
          intro _ _
          trivial
      · simp only [if_neg h3]
        by_cases h5 : readU32 src 8 = 5
        · simp only [if_pos h5]
          by_cases hp0 : readU16 src 6 = 0
          · simp only [if_pos hp0]
            intro _ hp
            exact mkRes_snd mk _ src _ hp
          · simp only [if_neg hp0]
            by_cases hp2 : readU16 src 6 = 2
            · simp only [if_pos hp2, if_neg (show ¬ readU32 src 0 < 16 by omega)]
              cases hdec : dec (slice src 16 (readU32 src 0)) with
              | none =>
                intro hf _
                exact absurd rfl hf
              | some data =>
                intro _ hp
                exact mkRes_snd mk data src _ hp
            · simp only [if_neg hp2]
              intro hf _
              exact absurd rfl hf
        · simp only [if_neg h5]
          intro _ _
          trivial
  · intro n3 n5 n8
    unfold ChatCodec.decodeWith
    rw [if_neg h4]
    simp only [if_neg hA, if_neg hB, if_neg n8, if_neg n3, if_neg n5]

/-- Witness for C6: the encoded heartbeat frame carries opcode 2, which
the decoder does not handle; the frame is consumed whole with no
output. -/
theorem decode_consumes_total_length_witness :
    ChatCodec.decodeWith (M := List Nat) (fun _ => none) (fun _ => none)
      (ChatCodec.encode heartbeat) = (.needMore, []) := by
  have h := (decode_consumes_total_length (M := List Nat) (fun _ => none) (fun _ => none)
    (ChatCodec.encode heartbeat) (by decide) (by decide)).2
    (by decide) (by decide) (by decide)
  simpa using h

/-- C10: whenever ChatCodec::decode returns Ok(Some packets), the
packet list is non-empty: the decoder reports a frame producing no
packets (unknown opcode, an empty batch) with the same Ok(None) signal
as an incomplete buffer, through its final is_empty test. -/
theorem decode_some_nonempty {M : Type} (dec : List Nat → Option (List Nat))
    (mk : List Nat → Option M) (src : List Nat) (ps : List (ChatCodec.ChatPacket M)) :
    (ChatCodec.decodeWith dec mk src).1 = .packets ps → ps ≠ [] := by
  intro h
  simp only [ChatCodec.decodeWith] at h
  repeat' split at h
  all_goals (try exact mkRes_packets_nonempty _ _ _ _ _ h)
  all_goals (simp at h; try subst h; try simp)

/-- Witness for C10: the ConnectSuccess frame decodes to the singleton
packet list, which is non-empty. -/
theorem decode_some_nonempty_witness :
    ([ChatCodec.ChatPacket.ConnectSuccess] : List (ChatCodec.ChatPacket (List Nat))) ≠ [] :=
  decode_some_nonempty (fun _ => none) (fun _ => none)
    (ChatCodec.encode ⟨1, 8, []⟩) [.ConnectSuccess] (by decide)

/-! ## Batched sub-frames -/

/-- One length-prefixed sub-frame: a 4-byte big-endian total length
(16 plus the payload length), 12 further header bytes the decoder
skips, then the payload. -/
def mkSub (s : List Nat × List Nat) : List Nat :=
  putU32 (16 + s.2.length) ++ s.1 ++ s.2

/-- Concatenation of length-prefixed sub-frames, the layout of a
decompressed version-2 Message payload. -/
def concatSubs : List (List Nat × List Nat) → List Nat
  | [] => []
  | s :: rest => mkSub s ++ concatSubs rest

theorem readU32_putU32 (n : Nat) (tl : List Nat) :
    readU32 (putU32 n ++ tl) 0 = n % 2^32 := by
  simp [readU32, putU32]
  omega

theorem length_mkSub (s : List Nat × List Nat) (h12 : s.1.length = 12) :
    (mkSub s).length = 16 + s.2.length := by
  simp [mkSub, putU32, h12]
  omega

theorem subFrames_concatSubs (subs : List (List Nat × List Nat))
    (h : ∀ s ∈ subs, s.1.length = 12 ∧ 16 + s.2.length < 2^32) :
    ChatCodec.subFrames (concatSubs subs) = some (subs.map Prod.snd) := by
  induction subs with
  | nil =>
    rw [ChatCodec.subFrames]
    simp [concatSubs]
  | cons s rest ih =>
    obtain ⟨h12, hlt⟩ := h s (List.mem_cons_self s rest)
    have hrest := ih (fun t ht => h t (List.mem_cons_of_mem s ht))
    have hms : (mkSub s).length = 16 + s.2.length := length_mkSub s h12
    have hdata : concatSubs (s :: rest) = mkSub s ++ concatSubs rest := rfl
    have hlen : (concatSubs (s :: rest)).length =
        16 + s.2.length + (concatSubs rest).length := by
      rw [hdata]
      simp [hms]
    have hr0 : readU32 (concatSubs (s :: rest)) 0 = 16 + s.2.length := by
      rw [hdata]
      simp only [mkSub, List.append_assoc]
      rw [readU32_putU32]
      exact Nat.mod_eq_of_lt hlt
    have hdrop : (concatSubs (s :: rest)).drop (16 + s.2.length) = concatSubs rest := by
      rw [hdata, ← hms]
      simpa using @List.drop_append Nat (mkSub s) (concatSubs rest) 0
    have hslice : slice (concatSubs (s :: rest)) 16 (16 + s.2.length) = s.2 := by
      have hd : (concatSubs (s :: rest)).drop 16 = s.2 ++ concatSubs rest := by
        rw [hdata]
        show (((putU32 (16 + s.2.length) ++ s.1) ++ s.2) ++ concatSubs rest).drop 16 =
          s.2 ++ concatSubs rest
        rw [List.append_assoc (putU32 (16 + s.2.length) ++ s.1) s.2 (concatSubs rest)]
        have h16 := @List.drop_append Nat (putU32 (16 + s.2.length) ++ s.1)
          (s.2 ++ concatSubs rest) 0
        simpa [putU32, h12] using h16
      unfold slice
      rw [hd]
      have : 16 + s.2.length - 16 = s.2.length := by omega
      rw [this, List.take_append_of_le_length (Nat.le_refl _), List.take_length]
    rw [ChatCodec.subFrames]
    simp only [hlen, hr0]
    rw [if_neg (by omega), if_neg (by omega), if_neg (by omega), if_neg (by omega)]
    rw [hdrop, hrest, hslice]
    simp

theorem msgList_of_forall₂ {M : Type} (mk : List Nat → Option M)
    (ps : List (List Nat)) (ms : List M)
    (h : List.Forall₂ (fun p m => mk p = some m) ps ms) :
    ChatCodec.msgList mk ps = some (ms.map ChatCodec.ChatPacket.Message) := by
  induction h with
  | nil => rfl
  | cons hpm _ ih => simp [ChatCodec.msgList, hpm, ih]

/-- C2: a version-2 Message frame whose payload decompresses to a
concatenation of N length-prefixed sub-frames decodes, in one call, to
exactly N Message packets in the sub-frames' encoded order, the i-th
built by the message builder from exactly the i-th sub-frame's payload
text, unchanged (and the frame is consumed whole; with N = 0 the empty
packet list is reported as Ok(None)). -/
theorem decode_batch_expansion {M : Type} (dec : List Nat → Option (List Nat))
    (mk : List Nat → Option M) (c : List Nat)
    (subs : List (List Nat × List Nat)) (ms : List M)
    (hc : 16 + c.length < 2^32)
    (hsubs : ∀ s ∈ subs, s.1.length = 12 ∧ 16 + s.2.length < 2^32)
    (hdec : dec c = some (concatSubs subs))
    (hmk : List.Forall₂ (fun s m => mk s.2 = some m) subs ms) :
    ChatCodec.decodeWith dec mk (ChatCodec.encode ⟨2, 5, c⟩) =
      ((if ms.isEmpty then .needMore else .packets (ms.map .Message)), []) := by
  have hl : (ChatCodec.encode ⟨2, 5, c⟩).length = 16 + c.length := by
    simpa using length_encode ⟨2, 5, c⟩
  have h0 : readU32 (ChatCodec.encode ⟨2, 5, c⟩) 0 = 16 + c.length := by
    rw [readU32_encode_zero]
    exact Nat.mod_eq_of_lt hc
  have h6 : readU16 (ChatCodec.encode ⟨2, 5, c⟩) 6 = 2 := by
    rw [readU16_encode_six]
    norm_num
  have h8 : readU32 (ChatCodec.encode ⟨2, 5, c⟩) 8 = 5 := by
    rw [readU32_encode_eight]
    norm_num
  have hpay : slice (ChatCodec.encode ⟨2, 5, c⟩) 16 (16 + c.length) = c :=
    slice_encode_payload ⟨2, 5, c⟩
  have hdropall : (ChatCodec.encode ⟨2, 5, c⟩).drop (16 + c.length) = [] := by
    rw [← hl]
    exact List.drop_length _
  have hforall : List.Forall₂ (fun p m => mk p = some m) (subs.map Prod.snd) ms := by
    rw [List.forall₂_map_left_iff]
    exact hmk
  unfold ChatCodec.decodeWith
  rw [if_neg (by omega)]
  simp only [h0, h6, h8, hl]
  rw [if_neg (by omega), if_neg (by omega)]
  norm_num
  rw [hpay, hdec]
  show ChatCodec.mkRes mk (concatSubs subs) (ChatCodec.encode ⟨2, 5, c⟩) (16 + c.length) = _
  unfold ChatCodec.mkRes
  simp only [subFrames_concatSubs subs hsubs, msgList_of_forall₂ mk _ ms hforall, hdropall]
  cases ms <;> simp

/-- Witness for C2: a two-sub-frame batch with payload texts [104,105]
and [106], recorded unchanged by the identity message builder. -/
theorem decode_batch_expansion_witness :
    ChatCodec.decodeWith (M := List Nat)
      (fun _ => some (concatSubs [(List.replicate 12 0, [104, 105]),
        (List.replicate 12 0, [106])]))
      (fun p => some p) (ChatCodec.encode ⟨2, 5, [9, 9, 9]⟩) =
      (.packets [.Message [104, 105], .Message [106]], []) := by
  have h := decode_batch_expansion (M := List Nat)
    (fun _ => some (concatSubs [(List.replicate 12 0, [104, 105]),
      (List.replicate 12 0, [106])]))
    (fun p => some p) [9, 9, 9]
    [(List.replicate 12 0, [104, 105]), (List.replicate 12 0, [106])]
    [[104, 105], [106]]
    (by norm_num) (by decide) rfl (by refine .cons rfl (.cons rfl .nil))
  simpa using h

/-! ## Message::parse claims -/

theorem fromNat_ge_four (n : Nat) (h : 3 < n) : GuardLevel.fromNat n = none := by
  obtain ⟨m, rfl⟩ : ∃ m, n = m + 4 := ⟨n - 4, by omega⟩
  rfl

/-- A minimal well-formed WELCOME_GUARD document whose guard_level
ordinal is n. -/
def welcomeGuardFixture (n : Nat) : JsonValue :=
  .obj [("cmd", .str "WELCOME_GUARD"),
        ("data", .obj [("guard_level", .num (n : Int)), ("uid", .num 1),
                       ("username", .str "u")])]

/-- C7: GuardLevel::from maps ordinals 0, 1, 2, 3 to None, Governor,
Praefect, Captain, and any larger ordinal yields no value, which makes
the enclosing WELCOME_GUARD message parse fail with the missing-field
outcome the caller turns into ParsingError. -/
theorem guard_level_mapping :
    (GuardLevel.fromNat 0 = some .None ∧ GuardLevel.fromNat 1 = some .Governor ∧
     GuardLevel.fromNat 2 = some .Praefect ∧ GuardLevel.fromNat 3 = some .Captain) ∧
    (∀ n : Nat, 3 < n →
      GuardLevel.fromNat n = none ∧
      Message.parse (welcomeGuardFixture n) = .missing) := by
  refine ⟨⟨rfl, rfl, rfl, rfl⟩, ?_⟩
  intro n hn
  refine ⟨fromNat_ge_four n hn, ?_⟩
  have hdisp : Message.parse (welcomeGuardFixture n) =
      toOutcome (armWelcomeGuard (welcomeGuardFixture n)) := by
    have hcmd : asStr (jget (welcomeGuardFixture n) "cmd") = some "WELCOME_GUARD" := rfl
    unfold Message.parse
    simp only [hcmd]
    simp
  rw [hdisp]
  have h1 : jget (jget (welcomeGuardFixture n) "data") "guard_level" = .num (n : Int) := by
    simp [welcomeGuardFixture, jget, findField]
  have harm : armWelcomeGuard (welcomeGuardFixture n) = none := by
    by_cases hbig : (n : Int) < 4294967296
    · have h2 : asU32 (JsonValue.num (n : Int)) = some n := by
        simp [asU32, hbig]
      unfold armWelcomeGuard
      simp only [h1, h2]
      simp [fromNat_ge_four n hn]
    · have h2 : asU32 (JsonValue.num (n : Int)) = none := by
        simp [asU32, hbig]
      unfold armWelcomeGuard
      simp only [h1, h2]
      rfl
  rw [harm]
  rfl

/-- Witness for C7: ordinal 4 has no guard level and fails the
enclosing WELCOME_GUARD parse. -/
theorem guard_level_mapping_witness :
    GuardLevel.fromNat 4 = none ∧
    Message.parse (welcomeGuardFixture 4) = .missing :=
  guard_level_mapping.2 4 (by norm_num)

/-- C9: any JSON document whose cmd string is not one of the known
command tags parses to Raw carrying the original document unchanged. -/
theorem unknown_cmd_raw (j : JsonValue) (c : String)
    (hc : asStr (jget j "cmd") = some c) (hunk : c ∉ knownCmds) :
    Message.parse j = .ok (.Raw j) := by
  unfold Message.parse
  simp only [hc]
  simp only [knownCmds, List.mem_cons, List.not_mem_nil, or_false, not_or] at hunk
  obtain ⟨h1, h2, h3, h4, h5, h6, h7, h8, h9, h10, h11, h12, h13, h14, h15⟩ := hunk
  rw [if_neg h1, if_neg h2, if_neg h3, if_neg h4, if_neg h5, if_neg h6, if_neg h7,
    if_neg h8, if_neg h9, if_neg h10, if_neg h11, if_neg h12, if_neg h13, if_neg h14,
    if_neg h15]

/-- A document carrying an unrecognised command tag. -/
def futureEvent : JsonValue := .obj [("cmd", .str "SOME_FUTURE_EVENT")]

/-- Witness for C9 at the SOME_FUTURE_EVENT fixture. -/
theorem unknown_cmd_raw_witness : Message.parse futureEvent = .ok (.Raw futureEvent) :=
  unknown_cmd_raw futureEvent "SOME_FUTURE_EVENT" rfl (by decide)

/-- A WELCOME document whose data object carries every field the
variant extracts but no vip field (the json crate returns null for the
missing key, and null compares unequal to the number 1). -/
def welcomeNoVip : JsonValue :=
  .obj [("cmd", .str "WELCOME"),
        ("data", .obj [("is_admin", .boolean true), ("svip", .num 1),
                       ("uid", .num 5), ("uname", .str "a")])]

/-- C1 (refuted by the code): on a WELCOME document without a vip
field, Message::parse runs assert on data.vip == 1 and panics instead
of degrading to the ParsingError outcome, contradicting both the
specified no-panic rule and the function's own doc comment that a
missing required field yields None. -/
theorem welcome_missing_vip_panics : Message.parse welcomeNoVip = .panicked := rfl

end Mira
